import Mathlib

/- Verification of the RSI/MFI trading bot core: a shallow embedding of
   src/core/trade_engine.py and src/core/telegram_notifier.py.

   Python floats are modelled as exact rationals.  Calls to the exchange
   (pybit HTTP) and to the RiskManager (risk_management.py, whose outputs
   the claims treat as opaque inputs) enter the model as explicit oracle
   arguments, one per call site. -/

namespace TradeBot

/-- Value of Python `int(q)`: truncation toward zero. -/
def pyInt (q : ℚ) : ℤ := if 0 ≤ q then ⌊q⌋ else ⌈q⌉

/-- Value of Python `round(q)`: round to the nearest integer, half to even. -/
def pyRound (q : ℚ) : ℤ :=
  if q - ⌊q⌋ = 1 / 2 then (if ⌊q⌋ % 2 = 0 then ⌊q⌋ else ⌊q⌋ + 1) else round q

/-- Helper for `decimalsOf`: least number of factors of ten needed to make
the rational integral, capped by the fuel. -/
def decimalsGo (fuel : ℕ) (q : ℚ) : ℕ :=
  match fuel with
  | 0 => 0
  | n + 1 => if q.den = 1 then 0 else decimalsGo n (q * 10) + 1

/-- Number of digits a rational shows after the decimal point in
positional notation with trailing zeros stripped: the least `d` with
`q * 10 ^ d` integral, searched for `d = 0, ..., 20` and capped at 20.
`format_price` uses this for its tick count (the source renders the tick
with 20 fixed decimals and strips trailing zeros), and `gDecimals` uses
it for the digit counts inside the `g` rendering. -/
def decimalsOf (q : ℚ) : ℕ := decimalsGo 20 q

/-- Numeric value of the Python fixed-point rendering with `d` decimals
(the f-string rounds to `d` decimal places). -/
def pyFixed (d : ℕ) (q : ℚ) : ℚ := (pyRound (q * 10 ^ d) : ℚ) / 10 ^ d

/-- The rounding step of the Python `g` format at its default precision:
round to 6 significant digits, half to even (on the exact rational; the
source rounds the binary double).  `Int.log 10 q` is the decimal
exponent, so `q * 10 ^ (5 - log q)` scales the first significant digit
into the hundred-thousands place. -/
def sigRound (q : ℚ) : ℚ :=
  (pyRound (q * (10 : ℚ) ^ ((5 : ℤ) - Int.log 10 q)) : ℚ) /
    (10 : ℚ) ^ ((5 : ℤ) - Int.log 10 q)

/-- Number of characters after the decimal point in the Python rendering
`f-string q:g`, which `format_qty` uses as its decimal count.  After
rounding to 6 significant digits, `g` uses fixed notation when the
decimal exponent of the rounded value lies in `[-4, 6)` (count: the
decimal digits, trailing zeros stripped), and scientific notation
otherwise: there the characters after the point are the fractional
mantissa digits plus the exponent suffix (4 characters such as `e-05`,
5 for three-digit exponents), and there is no point at all when the
mantissa is integral (as in `1e-05`), giving 0. -/
def gDecimals (q : ℚ) : ℕ :=
  if q = 0 then 0
  else if -4 ≤ Int.log 10 (sigRound |q|) ∧ Int.log 10 (sigRound |q|) < 6 then
    decimalsOf (sigRound |q|)
  else if (sigRound |q| / (10 : ℚ) ^ Int.log 10 (sigRound |q|)).den = 1 then 0
  else
    decimalsOf (sigRound |q| / (10 : ℚ) ^ Int.log 10 (sigRound |q|)) +
      (if Int.log 10 (sigRound |q|) ≤ -100 ∨ 100 ≤ Int.log 10 (sigRound |q|)
       then 5 else 4)

/-- Instrument quantization metadata, as returned by
`TradeEngine.get_symbol_info`. -/
structure InstrInfo where
  min_qty : ℚ
  qty_step : ℚ
  tick_size : ℚ
deriving DecidableEq

/-- Numeric value of `TradeEngine.format_qty`: truncate the raw quantity to
a multiple of the step with `int(raw_qty / step) * step`, clamp with
`max(qty, min_qty)`, then render with as many decimals as the `g`
rendering of the step shows after its decimal point (`gDecimals`); with
zero decimals the source uses `str(int(qty))` (truncation), otherwise a
fixed-point f-string. -/
def format_qty (info : InstrInfo) (raw_qty : ℚ) : ℚ :=
  let step := info.qty_step
  let qty : ℚ := (pyInt (raw_qty / step) : ℚ) * step
  let qty := max qty info.min_qty
  let decimals := gDecimals step
  if decimals = 0 then (pyInt qty : ℚ) else pyFixed decimals qty

/-- Numeric value of `TradeEngine.format_price`: with a zero tick the input
is returned as is; otherwise `round(price / tick) * tick`, rendered with
the tick decimals. -/
def format_price (info : InstrInfo) (price : ℚ) : ℚ :=
  let tick := info.tick_size
  if tick = 0 then price
  else pyFixed (decimalsOf tick) ((pyRound (price / tick) : ℚ) * tick)

theorem pyInt_of_nonneg {q : ℚ} (h : 0 ≤ q) : pyInt q = ⌊q⌋ := if_pos h

theorem pyInt_intCast (n : ℤ) : pyInt (n : ℚ) = n := by
  unfold pyInt
  split <;> simp

theorem pyRound_intCast (n : ℤ) : pyRound (n : ℚ) = n := by
  unfold pyRound
  rw [Int.floor_intCast]
  have h : (n : ℚ) - n = 0 := sub_self _
  rw [h]
  norm_num

theorem abs_pyRound_sub_le (x : ℚ) : |(pyRound x : ℚ) - x| ≤ 1 / 2 := by
  unfold pyRound
  split
  · case isTrue h =>
      split <;>
        · rw [abs_le]
          constructor <;> push_cast <;> linarith
  · case isFalse h =>
      have := abs_sub_round x
      linarith [abs_sub_comm ((round x : ℤ) : ℚ) x, le_of_eq (abs_sub_comm x ((round x : ℤ) : ℚ))]

theorem pyRound_nearest (x : ℚ) (k : ℤ) :
    |(pyRound x : ℚ) - x| ≤ |(k : ℚ) - x| := by
  by_cases hk : k = pyRound x
  · rw [hk]
  · have h1 : (1 : ℚ) ≤ |(k : ℚ) - (pyRound x : ℚ)| := by
      rw [show ((k : ℚ) - (pyRound x : ℚ)) = ((k - pyRound x : ℤ) : ℚ) by push_cast; ring]
      rw [← Int.cast_abs]
      exact_mod_cast Int.one_le_abs (sub_ne_zero.mpr hk)
    have h2 : |(pyRound x : ℚ) - x| ≤ 1 / 2 := abs_pyRound_sub_le x
    have h3 : |(k : ℚ) - (pyRound x : ℚ)| ≤ |(k : ℚ) - x| + |x - (pyRound x : ℚ)| :=
      abs_sub_le _ _ _
    rw [abs_sub_comm x _] at h3
    linarith

theorem den_one_cast (q : ℚ) (h : q.den = 1) : ((q.num : ℤ) : ℚ) = q := by
  have := Rat.num_div_den q
  rw [h] at this
  simpa using this

theorem den_one_intCast_mul (m : ℤ) (a : ℚ) (h : a.den = 1) :
    (((m : ℚ) * a).den = 1) := by
  rw [← den_one_cast a h, ← Int.cast_mul]
  exact Rat.den_intCast _

theorem pyFixed_eq_self {d : ℕ} {q : ℚ} (h : (q * 10 ^ d).den = 1) :
    pyFixed d q = q := by
  unfold pyFixed
  have hcast : (((q * 10 ^ d).num : ℤ) : ℚ) = q * 10 ^ d := den_one_cast _ h
  rw [← hcast, pyRound_intCast, hcast]
  field_simp

theorem pyInt_cast_den_one {q : ℚ} (h : q.den = 1) : (pyInt q : ℚ) = q := by
  rw [← den_one_cast q h, pyInt_intCast]

theorem mul_step_den_one {d : ℕ} {step : ℚ} (k : ℤ)
    (hdec : (step * 10 ^ d).den = 1) : (((k : ℚ) * step) * 10 ^ d).den = 1 := by
  rw [mul_assoc]
  exact den_one_intCast_mul k _ hdec

theorem decimalsGo_den_one (fuel : ℕ) :
    ∀ q : ℚ, (∃ d, d ≤ fuel ∧ (q * 10 ^ d).den = 1) →
      (q * 10 ^ decimalsGo fuel q).den = 1 := by
  induction fuel with
  | zero =>
    rintro q ⟨d, hd, hden⟩
    obtain rfl : d = 0 := Nat.le_zero.mp hd
    simpa [decimalsGo] using hden
  | succ n ih =>
    rintro q ⟨d, hd, hden⟩
    show (q * 10 ^ (if q.den = 1 then 0 else decimalsGo n (q * 10) + 1)).den = 1
    split
    · case isTrue h => simpa using h
    · case isFalse h =>
        have hd0 : d ≠ 0 := by
          rintro rfl
          rw [pow_zero, mul_one] at hden
          exact h hden
        have hd1 : d - 1 + 1 = d := by omega
        have hex : ∃ d2, d2 ≤ n ∧ ((q * 10) * 10 ^ d2).den = 1 := by
          refine ⟨d - 1, by omega, ?_⟩
          rw [mul_assoc, ← pow_succ', hd1]
          exact hden
        have h2 := ih (q * 10) hex
        have hgoal : q * 10 ^ (decimalsGo n (q * 10) + 1) =
            (q * 10) * 10 ^ decimalsGo n (q * 10) := by ring
        rw [hgoal]
        exact h2

theorem sigRound_eq_self {q : ℚ}
    (h : (q * (10 : ℚ) ^ ((5 : ℤ) - Int.log 10 q)).den = 1) :
    sigRound q = q := by
  unfold sigRound
  have hcast := den_one_cast _ h
  rw [← hcast, pyRound_intCast, hcast]
  have h10 : ((10 : ℚ) ^ ((5 : ℤ) - Int.log 10 q)) ≠ 0 :=
    zpow_ne_zero _ (by norm_num)
  field_simp

theorem sigRound_fixed_den {q : ℚ} (hsig : sigRound q = q) :
    (q * (10 : ℚ) ^ ((5 : ℤ) - Int.log 10 q)).den = 1 := by
  unfold sigRound at hsig
  have h10 : ((10 : ℚ) ^ ((5 : ℤ) - Int.log 10 q)) ≠ 0 :=
    zpow_ne_zero _ (by norm_num)
  have h2 : (pyRound (q * (10 : ℚ) ^ ((5 : ℤ) - Int.log 10 q)) : ℚ) =
      q * (10 : ℚ) ^ ((5 : ℤ) - Int.log 10 q) := by
    field_simp at hsig
    exact hsig
  rw [← h2, Rat.den_intCast]

/-- On a positive step that the `g` rounding leaves unchanged and whose
decimal exponent lies in the fixed-notation range, the `g` decimal count
is the plain decimal-digit count. -/
theorem gDecimals_eq_decimalsOf {q : ℚ} (hq : 0 < q)
    (hsig : sigRound q = q)
    (hfix : -4 ≤ Int.log 10 q ∧ Int.log 10 q < 6) :
    gDecimals q = decimalsOf q := by
  unfold gDecimals
  rw [if_neg hq.ne', abs_of_pos hq, hsig, if_pos hfix]

theorem sigRound_one : sigRound (1 : ℚ) = 1 := by
  apply sigRound_eq_self
  rw [Int.log_one_right]
  norm_num

theorem gDecimals_one : gDecimals (1 : ℚ) = 0 := by
  rw [gDecimals_eq_decimalsOf one_pos sigRound_one
    (by rw [Int.log_one_right]; exact ⟨by norm_num, by norm_num⟩)]
  norm_num [decimalsOf, decimalsGo]

/-- Common evaluation of `format_qty` when the `min_qty` clamp does not
engage and the step renders with an exact number of decimals: the result
is exactly the truncated multiple of the step. -/
theorem format_qty_eq_of_min_le (info : InstrInfo) (raw_qty : ℚ)
    (hdec : (info.qty_step * 10 ^ gDecimals info.qty_step).den = 1)
    (hnoclamp : info.min_qty ≤ (pyInt (raw_qty / info.qty_step) : ℚ) * info.qty_step) :
    format_qty info raw_qty = (pyInt (raw_qty / info.qty_step) : ℚ) * info.qty_step := by
  unfold format_qty
  simp only [max_eq_left hnoclamp]
  split
  · case isTrue h0 =>
      rw [h0, pow_zero, mul_one] at hdec
      exact pyInt_cast_den_one (den_one_intCast_mul _ _ hdec)
  · case isFalse h0 =>
      exact pyFixed_eq_self (mul_step_den_one _ hdec)

/-- Claim C2, corrected.  The claim as stated is false: when the truncated
multiple of the step falls below `min_qty`, the source clamps the quantity
up to `min_qty`, so the output can exceed the raw input quantity.  This is
the counterexample at `qty_step = 1`, `min_qty = 1`, `raw_qty = 1/2`, where
the output is `1 > 1/2`. -/
theorem c2_counterexample :
    ¬ ∀ (info : InstrInfo), 0 < info.qty_step → 0 < info.min_qty →
      ∀ raw_qty : ℚ,
        (∃ k : ℤ, format_qty info raw_qty = (k : ℚ) * info.qty_step) ∧
        info.min_qty ≤ format_qty info raw_qty ∧
        format_qty info raw_qty ≤ raw_qty := by
  intro h
  have h2 := (h ⟨1, 1, 1⟩ one_pos one_pos (1 / 2)).2.2
  have hval : format_qty ⟨1, 1, 1⟩ (1 / 2) = 1 := by
    norm_num [format_qty, pyInt, gDecimals_one, pyFixed]
  rw [hval] at h2
  norm_num at h2

/-- Claim C2, amended: for an instrument whose positive `qty_step` has at
most 6 significant digits (so the `g` rendering does not round it) and a
decimal exponent in the fixed-notation range `[-4, 6)` (so the `g`
rendering is positional, not scientific), positive `min_qty`, and a
nonnegative raw quantity whose truncation to a multiple of the step is at
least `min_qty` (the `min_qty` clamp does not engage), the output of
`format_qty` is a multiple of `qty_step`, at least `min_qty`, and at most
the raw quantity.  Outside these conditions the output can round up: the
clamp raises it to `min_qty`, and a step below `1/10^4` renders in
scientific notation, making the source truncate the quantity to an
integer. -/
theorem c2_format_qty_quantizes (info : InstrInfo) (raw_qty : ℚ)
    (hstep : 0 < info.qty_step) (_hmin : 0 < info.min_qty)
    (hsig : sigRound info.qty_step = info.qty_step)
    (hfix : -4 ≤ Int.log 10 info.qty_step ∧ Int.log 10 info.qty_step < 6)
    (hraw : 0 ≤ raw_qty)
    (hnoclamp : info.min_qty ≤ (pyInt (raw_qty / info.qty_step) : ℚ) * info.qty_step) :
    (∃ k : ℤ, format_qty info raw_qty = (k : ℚ) * info.qty_step) ∧
    info.min_qty ≤ format_qty info raw_qty ∧
    format_qty info raw_qty ≤ raw_qty := by
  have hz : (0 : ℤ) ≤ 5 - Int.log 10 info.qty_step := by omega
  have hden0 := sigRound_fixed_den hsig
  rw [← Int.toNat_of_nonneg hz, zpow_natCast] at hden0
  have hdec : (info.qty_step * 10 ^ decimalsOf info.qty_step).den = 1 := by
    unfold decimalsOf
    exact decimalsGo_den_one 20 _
      ⟨((5 : ℤ) - Int.log 10 info.qty_step).toNat, by omega, hden0⟩
  have hdec2 : (info.qty_step * 10 ^ gDecimals info.qty_step).den = 1 := by
    rw [gDecimals_eq_decimalsOf hstep hsig hfix]
    exact hdec
  have hval := format_qty_eq_of_min_le info raw_qty hdec2 hnoclamp
  refine ⟨⟨pyInt (raw_qty / info.qty_step), hval⟩, by rw [hval]; exact hnoclamp, ?_⟩
  rw [hval, pyInt_of_nonneg (div_nonneg hraw hstep.le)]
  calc (⌊raw_qty / info.qty_step⌋ : ℚ) * info.qty_step
      ≤ (raw_qty / info.qty_step) * info.qty_step := by
        exact mul_le_mul_of_nonneg_right (Int.floor_le _) hstep.le
    _ = raw_qty := div_mul_cancel₀ _ hstep.ne'

/-- Witness for the amended claim C2 at `qty_step = 1`, `min_qty = 1`,
`raw_qty = 3`. -/
theorem c2_format_qty_quantizes_witness :
    (∃ k : ℤ, format_qty ⟨1, 1, 1⟩ 3 = (k : ℚ) * (1 : ℚ)) ∧
    (1 : ℚ) ≤ format_qty ⟨1, 1, 1⟩ 3 ∧
    format_qty ⟨1, 1, 1⟩ 3 ≤ 3 :=
  c2_format_qty_quantizes ⟨1, 1, 1⟩ 3 one_pos one_pos
    sigRound_one
    (by rw [show ((⟨1, 1, 1⟩ : InstrInfo).qty_step) = (1 : ℚ) from rfl,
          Int.log_one_right]
        exact ⟨by norm_num, by norm_num⟩)
    (by norm_num)
    (by norm_num [pyInt])

/-- Claim C3: for an instrument with positive decimal `tick_size`, the
output of `format_price` is the multiple of `tick_size` nearest to the
input price: it is a multiple, and no other multiple is closer. -/
theorem c3_format_price_nearest (info : InstrInfo) (price : ℚ)
    (htick : 0 < info.tick_size)
    (hdec : (info.tick_size * 10 ^ decimalsOf info.tick_size).den = 1) :
    (∃ m : ℤ, format_price info price = (m : ℚ) * info.tick_size) ∧
    ∀ k : ℤ, |format_price info price - price| ≤ |(k : ℚ) * info.tick_size - price| := by
  have hval : format_price info price =
      (pyRound (price / info.tick_size) : ℚ) * info.tick_size := by
    unfold format_price
    rw [if_neg htick.ne']
    exact pyFixed_eq_self (mul_step_den_one _ hdec)
  refine ⟨⟨pyRound (price / info.tick_size), hval⟩, fun k => ?_⟩
  rw [hval]
  have hfact : ∀ j : ℤ, (j : ℚ) * info.tick_size - price =
      info.tick_size * ((j : ℚ) - price / info.tick_size) := by
    intro j
    field_simp
  rw [hfact, hfact, abs_mul, abs_mul]
  exact mul_le_mul_of_nonneg_left
    (pyRound_nearest (price / info.tick_size) k) (abs_nonneg _)

/-- Witness for claim C3 at `tick_size = 1/2`, `price = 3/5`. -/
theorem c3_format_price_nearest_witness :
    (∃ m : ℤ, format_price ⟨1, 1, 1 / 2⟩ (3 / 5) = (m : ℚ) * ((1 : ℚ) / 2)) ∧
    ∀ k : ℤ, |format_price ⟨1, 1, 1 / 2⟩ (3 / 5) - 3 / 5| ≤
      |(k : ℚ) * ((1 : ℚ) / 2) - 3 / 5| :=
  c3_format_price_nearest ⟨1, 1, 1 / 2⟩ (3 / 5) (by norm_num)
    (by norm_num [decimalsOf, decimalsGo])

/-- Value of Python `str.lower()` on the short ASCII side strings the
engine uses. -/
def pyLower (s : String) : String := String.mk (s.data.map Char.toLower)

/-- One venue position row (the fields of `get_positions` the source
reads), also the shape of the dict the source stores in `self.position`. -/
structure Position where
  side : String
  size : ℚ
  avg_price : ℚ
  unrealized_pnl : ℚ
deriving DecidableEq

/-- The mutable position-scoped fields of `TradeEngine` (`__init__` lines
35-39).  `position_start_time` carries an abstract clock value standing
for `datetime.now()`. -/
structure EngineState where
  position : Option Position
  profit_lock_active : Bool
  entry_price : ℚ
  position_side : Option String
  position_start_time : Option ℕ
deriving DecidableEq

/-- Result of the `get_positions` venue call as the source discriminates
it: `failure` covers both a non-zero `retCode` and a raised exception
(both branches of `check_position` act identically), `ok` carries the
position list. -/
inductive PosQueryResult where
  | failure : PosQueryResult
  | ok : List Position → PosQueryResult
deriving DecidableEq

/-- Result of a venue order or stop submission: accepted (`retCode = 0`),
rejected (non-zero `retCode`), or the call raised an exception. -/
inductive OrderOutcome where
  | accepted : OrderOutcome
  | rejected : OrderOutcome
  | raised : OrderOutcome
deriving DecidableEq

/-- A market order submitted through `place_order`. -/
structure Order where
  side : String
  qty : ℚ
  reduce_only : Bool
deriving DecidableEq

/-- Notifications handed to the TelegramNotifier by the engine. -/
inductive Notif where
  | trade_opened (price : ℚ) (size : ℚ) (side : String) : Notif
  | trade_closed (pnl : ℚ) (reason : String) : Notif
  | profit_lock_activated : Notif
deriving DecidableEq

/-- Outbound venue writes and notifications performed during a step.
`trailing_stop_subs` counts `set_trading_stop` calls made from
`_set_trailing_stop`, `sl_tp_subs` those made from `_set_stop_and_tp`, and
`lock_sets` counts assignments of `profit_lock_active := true` (which
happen only in `handle_risk_management`). -/
structure Effects where
  orders : List Order
  trailing_stop_subs : ℕ
  sl_tp_subs : ℕ
  lock_sets : ℕ
  notifs : List Notif
deriving DecidableEq

def Effects.nil : Effects := ⟨[], 0, 0, 0, []⟩

def Effects.app (a b : Effects) : Effects :=
  ⟨a.orders ++ b.orders, a.trailing_stop_subs + b.trailing_stop_subs,
   a.sl_tp_subs + b.sl_tp_subs, a.lock_sets + b.lock_sets,
   a.notifs ++ b.notifs⟩

/-- `TradeEngine._clear_position`. -/
def clear_position (_s : EngineState) : EngineState :=
  { position := none, profit_lock_active := false, entry_price := 0,
    position_side := none, position_start_time := none }

/-- `TradeEngine.check_position`: on query failure, an empty list, or a
non-positive size, the state is cleared; otherwise the state mirrors the
first venue row.  The source makes no venue writes here, so the effects
are empty in every branch. -/
def check_position (now : ℕ) (r : PosQueryResult) (s : EngineState) :
    EngineState × Effects :=
  match r with
  | .failure => (clear_position s, Effects.nil)
  | .ok [] => (clear_position s, Effects.nil)
  | .ok (p :: _) =>
    if p.size ≤ 0 then (clear_position s, Effects.nil)
    else
      ({ position := some { side := p.side, size := p.size,
                            avg_price := p.avg_price,
                            unrealized_pnl := p.unrealized_pnl },
         profit_lock_active := s.profit_lock_active,
         entry_price := p.avg_price,
         position_side := some (pyLower p.side),
         position_start_time :=
           if s.position.isNone then some now else s.position_start_time },
       Effects.nil)

/-- `TradeEngine.close_position`.  With no position held it returns
failure untouched.  Otherwise it submits one reduce-only market order on
the opposite side for the full recorded size; if the order is rejected or
the call raises, the handler returns failure with the state unchanged;
on acceptance it emits the trade-closed notification, clears the state
and returns success. -/
def close_position (outcome : OrderOutcome) (reason : String)
    (s : EngineState) : EngineState × Effects × Bool :=
  match s.position with
  | none => (s, Effects.nil, false)
  | some p =>
    let side := if p.side = "Buy" then "Sell" else "Buy"
    let eff : Effects :=
      { orders := [{ side := side, qty := p.size, reduce_only := true }],
        trailing_stop_subs := 0, sl_tp_subs := 0, lock_sets := 0,
        notifs := [] }
    match outcome with
    | .raised => (s, eff, false)
    | .rejected => (s, eff, false)
    | .accepted =>
      (clear_position s,
       { eff with notifs := [.trade_closed p.unrealized_pnl reason] },
       true)

/-- Oracle inputs consumed by one `open_position` call: the raw size
computed by `RiskManager.calculate_position_size` (risk_management.py is
outside the embedded core; its output is an input here), the
`get_symbol_info` result, the entry-order outcome, the outcome of the
SL/TP `set_trading_stop` call (which the source logs but never reads),
and the inputs for the force-close branch taken when a position is still
held. -/
structure OpenInput where
  raw_size : ℚ
  info : Option InstrInfo
  entry_order : OrderOutcome
  sl_tp_outcome : OrderOutcome
  now : ℕ
  force_close_order : OrderOutcome
  recheck : PosQueryResult
deriving DecidableEq

/-- `TradeEngine.open_position`.  A held position is force-closed and
re-checked first; missing instrument info aborts; the entry market order
is submitted, and only on its acceptance does the source submit the SL/TP
stop (outcome ignored), record `entry_price`, `position_side` and
`position_start_time`, reset `profit_lock_active`, and emit the
trade-opened notification.  `self.position` itself is never assigned
here.  The trailing-stop payload prices are not tracked, only the calls. -/
def open_position (i : OpenInput) (action : String) (price : ℚ)
    (s : EngineState) : EngineState × Effects × Bool :=
  let step1 : EngineState × Effects × Bool :=
    match s.position with
    | some _ =>
      let r := close_position i.force_close_order "Force Close" s
      let s2 := (check_position i.now i.recheck r.1).1
      (s2, r.2.1, s2.position.isNone)
    | none => (s, Effects.nil, true)
  match step1 with
  | (s1, e1, false) => (s1, e1, false)
  | (s1, e1, true) =>
    match i.info with
    | none => (s1, e1, false)
    | some info =>
      let qty := format_qty info i.raw_size
      let side := if action = "BUY" then "Buy" else "Sell"
      let eff := Effects.app e1
        { orders := [{ side := side, qty := qty, reduce_only := false }],
          trailing_stop_subs := 0, sl_tp_subs := 0, lock_sets := 0,
          notifs := [] }
      match i.entry_order with
      | .raised => (s1, eff, false)
      | .rejected => (s1, eff, false)
      | .accepted =>
        let eff := Effects.app eff
          { orders := [], trailing_stop_subs := 0, sl_tp_subs := 1,
            lock_sets := 0, notifs := [] }
        let s2 : EngineState :=
          { s1 with profit_lock_active := false, entry_price := price,
                    position_side := some (pyLower side),
                    position_start_time := some i.now }
        (s2,
         Effects.app eff
           { orders := [], trailing_stop_subs := 0, sl_tp_subs := 0,
             lock_sets := 0,
             notifs := [.trade_opened price qty side] },
         true)

/-- `TradeEngine.handle_risk_management` together with
`_set_trailing_stop`.  `activate` is the oracle for
`RiskManager.should_activate_profit_lock`; `trailing_info` is the
`get_symbol_info` result inside `_set_trailing_stop` (on `None` the
source returns before calling `set_trading_stop`, so no submission is
counted; a rejected or raised `set_trading_stop` is still a
submission). -/
def handle_risk_management (activate : Bool) (trailing_info : Option InstrInfo)
    (s : EngineState) : EngineState × Effects :=
  if s.position.isNone ∨ s.entry_price = 0 then (s, Effects.nil)
  else if s.profit_lock_active = false ∧ activate = true then
    ({ s with profit_lock_active := true },
     { orders := [],
       trailing_stop_subs := if trailing_info.isSome then 1 else 0,
       sl_tp_subs := 0, lock_sets := 1,
       notifs := [.profit_lock_activated] })
  else (s, Effects.nil)

/-- One strategy signal (`RSI_MFI_Cloud.generate_signal` output as the
engine reads it). -/
structure Signal where
  action : String
  price : ℚ
deriving DecidableEq

/-- `TradeEngine.handle_signal`: with a held position, close only on the
opposite signal; with no position, open. -/
def handle_signal (i : OpenInput) (close_order : OrderOutcome)
    (signal : Option Signal) (s : EngineState) : EngineState × Effects :=
  match signal with
  | none => (s, Effects.nil)
  | some sig =>
    match s.position with
    | some p =>
      if (p.side = "Buy" ∧ sig.action = "SELL") ∨
         (p.side = "Sell" ∧ sig.action = "BUY") then
        let r := close_position close_order "Opposite Signal" s
        (r.1, r.2.1)
      else (s, Effects.nil)
    | none =>
      let r := open_position i sig.action sig.price s
      (r.1, r.2.1)

/-- Oracle inputs for one `run_cycle`: market-data availability, the two
`get_positions` responses, the profit-lock oracle, the trailing-stop
instrument info, the strategy signal, and the order oracles. -/
structure CycleInput where
  market_ok : Bool
  now : ℕ
  q1 : PosQueryResult
  activate : Bool
  trailing_info : Option InstrInfo
  q2 : PosQueryResult
  signal : Option Signal
  close_order : OrderOutcome
  openi : OpenInput
deriving DecidableEq

/-- The `if self.position:` block of `run_cycle`: with a position held
after the first refresh, run `handle_risk_management` and refresh
again. -/
def risk_phase (i : CycleInput) (s1 : EngineState) : EngineState × Effects :=
  if s1.position.isSome then
    let r := handle_risk_management i.activate i.trailing_info s1
    let c2 := check_position i.now i.q2 r.1
    (c2.1, Effects.app r.2 c2.2)
  else (s1, Effects.nil)

/-- `TradeEngine.run_cycle`: bail out without market data; refresh the
position; when one is held run risk management and refresh again; then
handle the signal.  The status display makes no venue calls and touches
no state, so it is not modelled. -/
def run_cycle (i : CycleInput) (s : EngineState) : EngineState × Effects :=
  if i.market_ok = false then (s, Effects.nil)
  else
    let c1 := check_position i.now i.q1 s
    let mid := risk_phase i c1.1
    let hs := handle_signal i.openi i.close_order i.signal mid.1
    (hs.1, Effects.app c1.2 (Effects.app mid.2 hs.2))

/-- Iterated `run_cycle` over a list of per-cycle oracle inputs,
accumulating the effects. -/
def runTrace (is : List CycleInput) (s : EngineState) :
    EngineState × Effects :=
  match is with
  | [] => (s, Effects.nil)
  | i :: rest =>
    let r := run_cycle i s
    let t := runTrace rest r.1
    (t.1, Effects.app r.2 t.2)

/-- The fully cleared state `_clear_position` produces. -/
theorem clear_position_def (s : EngineState) :
    clear_position s =
      { position := none, profit_lock_active := false, entry_price := 0,
        position_side := none, position_start_time := none } := rfl

/-- Claim C7: calling `close_position` while no position is held performs
no venue order, emits no notification, leaves the state unchanged and
returns failure. -/
theorem c7_close_without_position_noop (outcome : OrderOutcome)
    (reason : String) (s : EngineState) (h : s.position = none) :
    close_position outcome reason s = (s, Effects.nil, false) := by
  unfold close_position
  rw [h]

/-- Witness for claim C7 on a concrete flat state. -/
theorem c7_close_without_position_noop_witness :
    close_position .accepted "Signal"
        ⟨none, false, 0, none, none⟩ =
      (⟨none, false, 0, none, none⟩, Effects.nil, false) :=
  c7_close_without_position_noop .accepted "Signal" _ rfl

/-- Claim C10: with a position held, a rejected or raised close order
leaves the state unchanged, emits no notification and returns failure;
only an accepted close order clears the state and emits the trade-closed
notification. -/
theorem c10_close_failure_keeps_state (outcome : OrderOutcome)
    (reason : String) (s : EngineState) (p : Position)
    (hp : s.position = some p) :
    ((outcome = .rejected ∨ outcome = .raised) →
      close_position outcome reason s =
        (s, ⟨[⟨if p.side = "Buy" then "Sell" else "Buy", p.size, true⟩],
             0, 0, 0, []⟩, false)) ∧
    (outcome = .accepted →
      close_position outcome reason s =
        (clear_position s,
         ⟨[⟨if p.side = "Buy" then "Sell" else "Buy", p.size, true⟩],
          0, 0, 0, [.trade_closed p.unrealized_pnl reason]⟩, true)) := by
  unfold close_position
  rw [hp]
  constructor
  · rintro (rfl | rfl) <;> rfl
  · rintro rfl
    rfl

/-- Witness for claim C10 on a concrete held long position and a rejected
close order. -/
theorem c10_close_failure_keeps_state_witness :
    ((OrderOutcome.rejected = OrderOutcome.rejected ∨
      OrderOutcome.rejected = OrderOutcome.raised) →
      close_position .rejected "Opposite Signal"
          ⟨some ⟨"Buy", 5, 100, 2⟩, true, 100, some "buy", some 7⟩ =
        (⟨some ⟨"Buy", 5, 100, 2⟩, true, 100, some "buy", some 7⟩,
         ⟨[⟨if ("Buy" : String) = "Buy" then "Sell" else "Buy",
            (5 : ℚ), true⟩], 0, 0, 0, []⟩, false)) ∧
    (OrderOutcome.rejected = OrderOutcome.accepted →
      close_position .rejected "Opposite Signal"
          ⟨some ⟨"Buy", 5, 100, 2⟩, true, 100, some "buy", some 7⟩ =
        (clear_position ⟨some ⟨"Buy", 5, 100, 2⟩, true, 100, some "buy", some 7⟩,
         ⟨[⟨if ("Buy" : String) = "Buy" then "Sell" else "Buy",
            (5 : ℚ), true⟩], 0, 0, 0,
          [.trade_closed (2 : ℚ) "Opposite Signal"]⟩, true)) :=
  c10_close_failure_keeps_state .rejected "Opposite Signal"
    ⟨some ⟨"Buy", 5, 100, 2⟩, true, 100, some "buy", some 7⟩
    ⟨"Buy", 5, 100, 2⟩ rfl

/-- Claim C4: holding a long position (venue side Buy) and receiving a
SELL signal, with the venue accepting the close order, the controller
submits exactly one reduce-only market Sell order for the full recorded
size, emits the trade-closed notification with reason Opposite Signal,
and clears every position-scoped field. -/
theorem c4_opposite_signal_closes_long (i : OpenInput)
    (close_order : OrderOutcome) (s : EngineState) (p : Position)
    (sig : Signal) (hp : s.position = some p) (hside : p.side = "Buy")
    (hact : sig.action = "SELL") (hok : close_order = .accepted) :
    handle_signal i close_order (some sig) s =
      ({ position := none, profit_lock_active := false, entry_price := 0,
         position_side := none, position_start_time := none },
       ⟨[⟨"Sell", p.size, true⟩], 0, 0, 0,
        [.trade_closed p.unrealized_pnl "Opposite Signal"]⟩) := by
  unfold handle_signal close_position
  rw [hp, hok]
  simp [hside, hact, clear_position]

/-- Witness for claim C4 on a concrete held long position. -/
theorem c4_opposite_signal_closes_long_witness :
    handle_signal ⟨1, none, .accepted, .accepted, 0, .accepted, .ok []⟩
        .accepted (some ⟨"SELL", 101⟩)
        ⟨some ⟨"Buy", 5, 100, 2⟩, true, 100, some "buy", some 7⟩ =
      ({ position := none, profit_lock_active := false, entry_price := 0,
         position_side := none, position_start_time := none },
       ⟨[⟨"Sell", (5 : ℚ), true⟩], 0, 0, 0,
        [.trade_closed (2 : ℚ) "Opposite Signal"]⟩) :=
  c4_opposite_signal_closes_long _ _ _ _ _ rfl rfl rfl rfl

/-- Claim C5: starting flat with instrument info available, a rejected or
raised entry order makes `open_position` return failure with the state
exactly unchanged and no trade-opened notification; an accepted entry
order records the opened state and returns success for every outcome of
the SL/TP stop submission (the source never reads that outcome, so a
failed stop set does not roll the opened position back). -/
theorem c5_entry_failure_aborts_open (i : OpenInput) (action : String)
    (price : ℚ) (s : EngineState) (info : InstrInfo)
    (hflat : s.position = none) (hinfo : i.info = some info) :
    ((i.entry_order = .rejected ∨ i.entry_order = .raised) →
      (open_position i action price s).1 = s ∧
      (open_position i action price s).2.2 = false ∧
      (open_position i action price s).2.1.notifs = []) ∧
    (i.entry_order = .accepted →
      ∀ o : OrderOutcome,
        ((open_position { i with sl_tp_outcome := o } action price s).1 =
          { s with profit_lock_active := false, entry_price := price,
                   position_side :=
                     some (pyLower (if action = "BUY" then "Buy" else "Sell")),
                   position_start_time := some i.now } ∧
         (open_position { i with sl_tp_outcome := o } action price s).2.2 =
           true)) := by
  constructor
  · intro hfail
    rcases hfail with hf | hf <;>
      simp [open_position, hflat, hinfo, hf, Effects.app, Effects.nil]
  · intro hacc o
    simp [open_position, hflat, hinfo, hacc, Effects.app, Effects.nil]

/-- Concrete oracle input used by the witness for claim C5: a rejected
entry order. -/
def openInputC5 : OpenInput :=
  ⟨10, some ⟨1, 1, 1⟩, .rejected, .accepted, 3, .accepted, .ok []⟩

/-- Concrete flat state used by the witness for claim C5. -/
def flatC5 : EngineState := ⟨none, false, 0, none, none⟩

/-- Witness for claim C5 on a concrete flat state with a rejected entry
order. -/
theorem c5_entry_failure_aborts_open_witness :
    ((openInputC5.entry_order = .rejected ∨ openInputC5.entry_order = .raised) →
      (open_position openInputC5 "BUY" 100 flatC5).1 = flatC5 ∧
      (open_position openInputC5 "BUY" 100 flatC5).2.2 = false ∧
      (open_position openInputC5 "BUY" 100 flatC5).2.1.notifs = []) ∧
    (openInputC5.entry_order = .accepted →
      ∀ o : OrderOutcome,
        ((open_position { openInputC5 with sl_tp_outcome := o }
            "BUY" 100 flatC5).1 =
          { flatC5 with
              profit_lock_active := false,
              entry_price := 100,
              position_side :=
                some (pyLower (if ("BUY" : String) = "BUY" then "Buy" else "Sell")),
              position_start_time := some openInputC5.now } ∧
         (open_position { openInputC5 with sl_tp_outcome := o }
            "BUY" 100 flatC5).2.2 = true)) :=
  c5_entry_failure_aborts_open openInputC5 "BUY" 100 flatC5 ⟨1, 1, 1⟩ rfl rfl

/-- Claim C6: when the venue refresh reports an empty position list or a
first row of size zero while a position is held, `check_position` clears
every position-scoped field and, like the source it embeds, performs no
outbound venue call (empty effects, in particular no order). -/
theorem c6_passive_close_no_order (now : ℕ) (r : PosQueryResult)
    (s : EngineState) (_hopen : s.position.isSome = true)
    (hr : r = .ok [] ∨ ∃ p ps, r = .ok (p :: ps) ∧ p.size = 0) :
    check_position now r s =
      ({ position := none, profit_lock_active := false, entry_price := 0,
         position_side := none, position_start_time := none },
       Effects.nil) := by
  rcases hr with rfl | ⟨p, ps, rfl, hsz⟩
  · rfl
  · simp [check_position, hsz, clear_position]

/-- Witness for claim C6 on a concrete held position and a zero-size
venue row. -/
theorem c6_passive_close_no_order_witness :
    check_position 9 (.ok [⟨"Buy", 0, 100, 0⟩])
        ⟨some ⟨"Buy", 5, 100, 2⟩, true, 100, some "buy", some 7⟩ =
      ({ position := none, profit_lock_active := false, entry_price := 0,
         position_side := none, position_start_time := none },
       Effects.nil) :=
  c6_passive_close_no_order 9 _ _ rfl (Or.inr ⟨_, _, rfl, rfl⟩)

/-- Claim C9: a failed venue position query (non-zero return code or a
raised exception, both folded into `PosQueryResult.failure`) makes
`check_position` clear every position-scoped field, exactly as if the
venue had reported no position. -/
theorem c9_query_failure_clears_state (now : ℕ) (s : EngineState) :
    check_position now .failure s = check_position now (.ok []) s ∧
    (check_position now .failure s).1.position = none ∧
    (check_position now .failure s).1.profit_lock_active = false ∧
    (check_position now .failure s).1.entry_price = 0 ∧
    (check_position now .failure s).1.position_side = none ∧
    (check_position now .failure s).1.position_start_time = none :=
  ⟨rfl, rfl, rfl, rfl, rfl, rfl⟩

/-- Outcome of one Telegram API call (`bot.send_message`): delivered, or
the call raised an exception carrying a message. -/
inductive Delivery where
  | delivered : Delivery
  | raises : String → Delivery
deriving DecidableEq

/-- The TelegramNotifier fields its methods read and write.  `enabled`
and `has_bot` mirror `self.enabled` and `self.bot is not None`;
`position_start_time` is the abstract clock value set by `trade_opened`
and consumed by `trade_closed`. -/
structure NotifierState where
  enabled : Bool
  has_bot : Bool
  position_start_time : Option ℕ
deriving DecidableEq

/-- How a send was resolved: console fallback (notifier disabled or no
bot), delivered, or the exception caught and logged by the in-method
handler.  The message texts are pure f-string formatting and are not
modelled. -/
inductive SendResult where
  | console : SendResult
  | sent : SendResult
  | caught : String → SendResult
deriving DecidableEq

/-- `TelegramNotifier.send_message`: with the notifier disabled or no bot
it prints and returns; otherwise the awaited API call sits inside
try/except, so a raised delivery is caught and logged.  An uncaught
exception would surface as `Except.error`; no branch produces one. -/
def send_message (n : NotifierState) (d : Delivery) :
    Except String SendResult :=
  if n.enabled = false ∨ n.has_bot = false then .ok .console
  else
    match d with
    | .delivered => .ok .sent
    | .raises e => .ok (.caught e)

/-- `TelegramNotifier.clear_messages`: same guard and try/except shape as
`send_message`, sending the session separator. -/
def clear_messages (n : NotifierState) (d : Delivery) :
    Except String SendResult :=
  if n.enabled = false ∨ n.has_bot = false then .ok .console
  else
    match d with
    | .delivered => .ok .sent
    | .raises e => .ok (.caught e)

/-- `TelegramNotifier.trade_opened`: records the open time, formats the
message (pure), and delegates to `send_message`. -/
def trade_opened (n : NotifierState) (now : ℕ) (d : Delivery) :
    NotifierState × Except String SendResult :=
  let n2 := { n with position_start_time := some now }
  (n2, send_message n2 d)

/-- `TelegramNotifier.trade_closed`: computes the duration and
earn-per-hour (the division is guarded by `minutes > 0`), resets the
recorded open time when one exists, and delegates to `send_message`. -/
def trade_closed (n : NotifierState) (now : ℕ) (pnl_usd : ℚ)
    (d : Delivery) : NotifierState × Except String SendResult :=
  match n.position_start_time with
  | some t0 =>
    let minutes : ℚ := ((now - t0 : ℕ) : ℚ) / 60
    let _earn_per_hour : ℚ :=
      if 0 < minutes then pnl_usd * 60 / minutes else 0
    let n2 := { n with position_start_time := none }
    (n2, send_message n2 d)
  | none => (n, send_message n d)

/-- `TelegramNotifier.profit_lock_activated`: formats and delegates to
`send_message`. -/
def profit_lock_activated (n : NotifierState) (d : Delivery) :
    Except String SendResult :=
  send_message n d

/-- `TelegramNotifier.error_notification`: formats and delegates to
`send_message`. -/
def error_notification (n : NotifierState) (d : Delivery) :
    Except String SendResult :=
  send_message n d

/-- `TelegramNotifier.bot_started`: awaits `clear_messages` (whose own
try/except keeps it from raising) and then delegates to `send_message`;
an exception escaping `clear_messages` would propagate here. -/
def bot_started (n : NotifierState) (d_clear d_send : Delivery) :
    Except String SendResult :=
  match clear_messages n d_clear with
  | .ok _ => send_message n d_send
  | .error e => .error e

/-- `TelegramNotifier.bot_stopped`: formats and delegates to
`send_message`. -/
def bot_stopped (n : NotifierState) (d : Delivery) :
    Except String SendResult :=
  send_message n d

@[simp]
theorem Effects.app_trailing (a b : Effects) :
    (Effects.app a b).trailing_stop_subs =
      a.trailing_stop_subs + b.trailing_stop_subs := rfl

@[simp]
theorem Effects.app_lock (a b : Effects) :
    (Effects.app a b).lock_sets = a.lock_sets + b.lock_sets := rfl

@[simp]
theorem Effects.nil_trailing : Effects.nil.trailing_stop_subs = 0 := rfl

@[simp]
theorem Effects.nil_lock : Effects.nil.lock_sets = 0 := rfl

theorem check_position_eff (now : ℕ) (r : PosQueryResult) (s : EngineState) :
    (check_position now r s).2 = Effects.nil := by
  unfold check_position
  rcases r with _ | (_ | ⟨p, ps⟩)
  · rfl
  · rfl
  · dsimp only
    split <;> rfl

theorem check_position_state (now : ℕ) (r : PosQueryResult) (s : EngineState) :
    (check_position now r s).1 = clear_position s ∨
    ((check_position now r s).1.profit_lock_active = s.profit_lock_active ∧
      (check_position now r s).1.position.isSome = true) := by
  unfold check_position
  rcases r with _ | (_ | ⟨p, ps⟩)
  · exact Or.inl rfl
  · exact Or.inl rfl
  · dsimp only
    split
    · exact Or.inl rfl
    · exact Or.inr ⟨rfl, rfl⟩

theorem clear_position_flag (s : EngineState) :
    (clear_position s).profit_lock_active = false := rfl

theorem clear_position_pos (s : EngineState) :
    (clear_position s).position = none := rfl

theorem hrm_eff_le (a : Bool) (ti : Option InstrInfo) (s : EngineState) :
    (handle_risk_management a ti s).2.trailing_stop_subs ≤
      (handle_risk_management a ti s).2.lock_sets ∧
    (handle_risk_management a ti s).2.lock_sets ≤ 1 := by
  unfold handle_risk_management
  split
  · exact ⟨le_refl 0, Nat.zero_le 1⟩
  · split
    · refine ⟨?_, le_refl 1⟩
      dsimp only
      split <;> simp
    · exact ⟨le_refl 0, Nat.zero_le 1⟩

theorem hrm_of_flag (a : Bool) (ti : Option InstrInfo) (s : EngineState)
    (h : s.profit_lock_active = true) :
    handle_risk_management a ti s = (s, Effects.nil) := by
  unfold handle_risk_management
  split
  · rfl
  · split
    · case isTrue h2 => rw [h] at h2; exact absurd h2.1 (by simp)
    · rfl

theorem hrm_of_lock_zero (a : Bool) (ti : Option InstrInfo) (s : EngineState)
    (h : (handle_risk_management a ti s).2.lock_sets = 0) :
    handle_risk_management a ti s = (s, Effects.nil) := by
  unfold handle_risk_management at h ⊢
  split at h
  · case isTrue h2 => rw [if_pos h2]
  · case isFalse h2 =>
      rw [if_neg h2]
      split at h
      · exact absurd h (by simp)
      · case isFalse h3 => rw [if_neg h3]

theorem hrm_of_lock_one (a : Bool) (ti : Option InstrInfo) (s : EngineState)
    (h : (handle_risk_management a ti s).2.lock_sets ≠ 0) :
    (handle_risk_management a ti s).1.profit_lock_active = true ∧
    (handle_risk_management a ti s).1.position = s.position := by
  unfold handle_risk_management at h ⊢
  split at h
  · exact absurd rfl h
  · split at h
    · case isTrue h2 =>
        rw [if_neg (by assumption), if_pos h2]
        exact ⟨rfl, rfl⟩
    · exact absurd rfl h

theorem close_position_eff (o : OrderOutcome) (reason : String)
    (s : EngineState) :
    (close_position o reason s).2.1.trailing_stop_subs = 0 ∧
    (close_position o reason s).2.1.lock_sets = 0 := by
  unfold close_position
  rcases s.position with _ | p
  · exact ⟨rfl, rfl⟩
  · rcases o with _ | _ | _ <;> exact ⟨rfl, rfl⟩

theorem close_position_state (o : OrderOutcome) (reason : String)
    (s : EngineState) :
    (close_position o reason s).1 = s ∨
    (close_position o reason s).1 = clear_position s := by
  unfold close_position
  rcases s.position with _ | p
  · exact Or.inl rfl
  · rcases o with _ | _ | _
    · exact Or.inr rfl
    · exact Or.inl rfl
    · exact Or.inl rfl

theorem open_position_pos_none (i : OpenInput) (action : String) (price : ℚ)
    (s : EngineState) (h : s.position = none) :
    (open_position i action price s).1.position = none := by
  unfold open_position
  rw [h]
  dsimp only
  rcases hI : i.info with _ | info
  · exact h
  · dsimp only
    rcases hE : i.entry_order with _ | _ | _ <;> dsimp only <;> exact h

theorem open_position_eff (i : OpenInput) (action : String) (price : ℚ)
    (s : EngineState) :
    (open_position i action price s).2.1.trailing_stop_subs = 0 ∧
    (open_position i action price s).2.1.lock_sets = 0 := by
  have hcl := close_position_eff i.force_close_order "Force Close" s
  unfold open_position
  rcases hp : s.position with _ | p <;> dsimp only
  · rcases hI : i.info with _ | info <;> dsimp only
    · exact ⟨rfl, rfl⟩
    · rcases hE : i.entry_order with _ | _ | _ <;> simp
  · rcases hb : (check_position i.now i.recheck
        (close_position i.force_close_order "Force Close" s).1).1.position.isNone
    · dsimp only
      exact hcl
    · dsimp only
      rcases hI : i.info with _ | info <;> dsimp only
      · exact hcl
      · rcases hE : i.entry_order with _ | _ | _ <;>
          simp [Effects.app, hcl.1, hcl.2]

theorem handle_signal_eff (i : OpenInput) (co : OrderOutcome)
    (sg : Option Signal) (s : EngineState) :
    (handle_signal i co sg s).2.trailing_stop_subs = 0 ∧
    (handle_signal i co sg s).2.lock_sets = 0 := by
  unfold handle_signal
  rcases sg with _ | sig
  · exact ⟨rfl, rfl⟩
  · dsimp only
    rcases hp : s.position with _ | p <;> dsimp only
    · exact open_position_eff i sig.action sig.price s |>.imp id id
    · split
      · exact close_position_eff co "Opposite Signal" s |>.imp id id
      · exact ⟨rfl, rfl⟩

theorem handle_signal_state (i : OpenInput) (co : OrderOutcome)
    (sg : Option Signal) (s : EngineState) :
    (handle_signal i co sg s).1 = s ∨
    (handle_signal i co sg s).1.position = none := by
  unfold handle_signal
  rcases sg with _ | sig
  · exact Or.inl rfl
  · dsimp only
    rcases hp : s.position with _ | p <;> dsimp only
    · exact Or.inr (open_position_pos_none i sig.action sig.price s hp)
    · split
      · rcases close_position_state co "Opposite Signal" s with hc | hc
        · exact Or.inl hc
        · exact Or.inr (by rw [hc]; rfl)
      · exact Or.inl rfl

theorem handle_signal_none (i : OpenInput) (co : OrderOutcome)
    (sg : Option Signal) (s : EngineState) (h : s.position = none) :
    (handle_signal i co sg s).1.position = none := by
  unfold handle_signal
  rcases sg with _ | sig
  · exact h
  · dsimp only
    rw [h]
    dsimp only
    exact open_position_pos_none i sig.action sig.price s h

theorem risk_phase_eff (i : CycleInput) (s1 : EngineState) :
    (risk_phase i s1).2.trailing_stop_subs ≤ (risk_phase i s1).2.lock_sets ∧
    (risk_phase i s1).2.lock_sets ≤ 1 := by
  unfold risk_phase
  split
  · have h1 := hrm_eff_le i.activate i.trailing_info s1
    have h2 := check_position_eff i.now i.q2
      (handle_risk_management i.activate i.trailing_info s1).1
    dsimp only
    rw [h2]
    simp
    omega
  · simp

theorem risk_phase_flag_mono (i : CycleInput) (s1 : EngineState)
    (h : s1.profit_lock_active = true) :
    (risk_phase i s1).2.lock_sets = 0 ∧
    ((risk_phase i s1).1.position.isSome = true →
      (risk_phase i s1).1.profit_lock_active = true) := by
  unfold risk_phase
  split
  · rw [hrm_of_flag i.activate i.trailing_info s1 h]
    dsimp only
    constructor
    · rw [check_position_eff]
      simp
    · intro hp
      rcases check_position_state i.now i.q2 s1 with hc | hc
      · rw [hc] at hp
        rw [clear_position_pos] at hp
        simp at hp
      · rw [hc.1]
        exact h
  · exact ⟨by simp, fun _ => h⟩

theorem risk_phase_lock_flag (i : CycleInput) (s1 : EngineState)
    (h : (risk_phase i s1).2.lock_sets ≠ 0) :
    (risk_phase i s1).1.position.isSome = true →
    (risk_phase i s1).1.profit_lock_active = true := by
  unfold risk_phase at h ⊢
  split at h
  · case isTrue hpos =>
      rw [if_pos hpos]
      dsimp only at h ⊢
      rw [check_position_eff] at h
      simp at h
      have hset := hrm_of_lock_one i.activate i.trailing_info s1 h
      intro hp
      rcases check_position_state i.now i.q2
          (handle_risk_management i.activate i.trailing_info s1).1 with hc | hc
      · rw [hc] at hp
        rw [clear_position_pos] at hp
        simp at hp
      · rw [hc.1]
        exact hset.1
  · exact absurd rfl h

theorem run_cycle_subs_le_lock (i : CycleInput) (s : EngineState) :
    (run_cycle i s).2.trailing_stop_subs ≤ (run_cycle i s).2.lock_sets := by
  unfold run_cycle
  split
  · simp
  · dsimp only
    have h1 := check_position_eff i.now i.q1 s
    have h2 := risk_phase_eff i (check_position i.now i.q1 s).1
    have h3 := handle_signal_eff i.openi i.close_order i.signal
      (risk_phase i (check_position i.now i.q1 s).1).1
    rw [h1]
    simp
    omega

theorem run_cycle_lock_le_one (i : CycleInput) (s : EngineState) :
    (run_cycle i s).2.lock_sets ≤ 1 := by
  unfold run_cycle
  split
  · simp
  · dsimp only
    have h1 := check_position_eff i.now i.q1 s
    have h2 := risk_phase_eff i (check_position i.now i.q1 s).1
    have h3 := handle_signal_eff i.openi i.close_order i.signal
      (risk_phase i (check_position i.now i.q1 s).1).1
    rw [h1]
    simp
    omega

theorem run_cycle_lock_of_flag (i : CycleInput) (s : EngineState)
    (h : s.profit_lock_active = true) :
    (run_cycle i s).2.lock_sets = 0 := by
  unfold run_cycle
  split
  · simp
  · dsimp only
    have h1 := check_position_eff i.now i.q1 s
    have h3 := handle_signal_eff i.openi i.close_order i.signal
      (risk_phase i (check_position i.now i.q1 s).1).1
    rw [h1]
    rcases check_position_state i.now i.q1 s with hc | hc
    · have : (risk_phase i (check_position i.now i.q1 s).1).2.lock_sets = 0 := by
        unfold risk_phase
        rw [hc]
        rw [if_neg (by rw [clear_position_pos]; simp)]
        simp
      simp [this, h3.2]
    · have h2 := risk_phase_flag_mono i (check_position i.now i.q1 s).1
        (by rw [hc.1]; exact h)
      simp [h2.1, h3.2]

theorem run_cycle_flag_mono (i : CycleInput) (s : EngineState)
    (h : s.profit_lock_active = true)
    (hp : (run_cycle i s).1.position.isSome = true) :
    (run_cycle i s).1.profit_lock_active = true := by
  unfold run_cycle at hp ⊢
  split at hp
  · case isTrue hm => rw [if_pos hm]; exact h
  · case isFalse hm =>
      rw [if_neg hm]
      dsimp only at hp ⊢
      rcases handle_signal_state i.openi i.close_order i.signal
          (risk_phase i (check_position i.now i.q1 s).1).1 with hh | hh
      · rw [hh] at hp ⊢
        rcases check_position_state i.now i.q1 s with hc | hc
        · exfalso
          have : (risk_phase i (check_position i.now i.q1 s).1).1.position = none := by
            unfold risk_phase
            rw [hc]
            rw [if_neg (by rw [clear_position_pos]; simp)]
            exact clear_position_pos s
          rw [this] at hp
          simp at hp
        · exact (risk_phase_flag_mono i (check_position i.now i.q1 s).1
            (by rw [hc.1]; exact h)).2 hp
      · rw [hh] at hp
        simp at hp

theorem run_cycle_lock_one_flag (i : CycleInput) (s : EngineState)
    (h : (run_cycle i s).2.lock_sets ≠ 0)
    (hp : (run_cycle i s).1.position.isSome = true) :
    (run_cycle i s).1.profit_lock_active = true := by
  unfold run_cycle at h hp ⊢
  split at h
  · simp at h
  · case isFalse hm =>
      rw [if_neg hm] at hp ⊢
      dsimp only at h hp ⊢
      rw [check_position_eff] at h
      have h3 := handle_signal_eff i.openi i.close_order i.signal
        (risk_phase i (check_position i.now i.q1 s).1).1
      simp [h3.2] at h
      rcases handle_signal_state i.openi i.close_order i.signal
          (risk_phase i (check_position i.now i.q1 s).1).1 with hh | hh
      · rw [hh] at hp ⊢
        exact risk_phase_lock_flag i (check_position i.now i.q1 s).1 h hp
      · rw [hh] at hp
        simp at hp

theorem runTrace_cons (i : CycleInput) (rest : List CycleInput)
    (s : EngineState) :
    runTrace (i :: rest) s =
      ((runTrace rest (run_cycle i s).1).1,
       Effects.app (run_cycle i s).2 (runTrace rest (run_cycle i s).1).2) :=
  rfl

theorem runTrace_nil (s : EngineState) : runTrace [] s = (s, Effects.nil) :=
  rfl

/-- Claim C1: along any run of cycles during which the engine state holds
a position at the start of every cycle (one position lifetime), the
number of `profit_lock_active := true` assignments plus one if the flag
is already set at the start is at most one (the flag turns on at most
once and never turns off while the position lives), every trailing-stop
submission is accounted to such an assignment (so at most one submission,
issued only on the false-to-true transition), and a flag that is set at
the start is still set at the end if the position is still held. -/
theorem c1_profit_lock_monotone (is : List CycleInput) (s : EngineState)
    (halive : ∀ k, k < is.length →
      ((runTrace (List.take k is) s).1.position.isSome = true)) :
    (runTrace is s).2.lock_sets +
        (if s.profit_lock_active = true then 1 else 0) ≤ 1 ∧
    (runTrace is s).2.trailing_stop_subs ≤ (runTrace is s).2.lock_sets ∧
    (s.profit_lock_active = true →
      (runTrace is s).1.position.isSome = true →
      (runTrace is s).1.profit_lock_active = true) := by
  induction is generalizing s with
  | nil =>
    refine ⟨?_, Nat.le_refl _, fun hf _ => hf⟩
    cases hsf : s.profit_lock_active <;> simp [runTrace, hsf]
  | cons i rest ih =>
    have hstep_subs := run_cycle_subs_le_lock i s
    have hstep_lock1 := run_cycle_lock_le_one i s
    have halive2 : ∀ k, k < rest.length →
        ((runTrace (List.take k rest) (run_cycle i s).1).1.position.isSome
          = true) := by
      intro k hk
      have h := halive (k + 1) (by simpa using Nat.succ_lt_succ hk)
      rw [List.take_succ_cons, runTrace_cons] at h
      exact h
    have IH := ih (run_cycle i s).1 halive2
    have hp1of : 0 < rest.length →
        ((run_cycle i s).1.position.isSome = true) := by
      intro hrest
      have h := halive 1 (by simpa using Nat.succ_lt_succ hrest)
      rw [show List.take 1 (i :: rest) = [i] from by simp,
        runTrace_cons] at h
      simpa [runTrace] using h
    rw [runTrace_cons]
    dsimp only
    refine ⟨?_, ?_, ?_⟩
    · simp only [Effects.app_lock]
      by_cases hf : s.profit_lock_active = true
      · rw [if_pos hf]
        have hl0 : (run_cycle i s).2.lock_sets = 0 :=
          run_cycle_lock_of_flag i s hf
        rcases Nat.eq_zero_or_pos rest.length with hrest | hrest
        · rw [List.length_eq_zero.mp hrest]
          simp [runTrace, hl0]
        · have hf1 : (run_cycle i s).1.profit_lock_active = true :=
            run_cycle_flag_mono i s hf (hp1of hrest)
          have h := IH.1
          rw [if_pos hf1] at h
          omega
      · rw [if_neg hf]
        by_cases hl : (run_cycle i s).2.lock_sets = 0
        · have h := IH.1
          omega
        · rcases Nat.eq_zero_or_pos rest.length with hrest | hrest
          · rw [List.length_eq_zero.mp hrest]
            simp [runTrace]
            omega
          · have hf1 : (run_cycle i s).1.profit_lock_active = true :=
              run_cycle_lock_one_flag i s hl (hp1of hrest)
            have h := IH.1
            rw [if_pos hf1] at h
            omega
    · simp only [Effects.app_trailing, Effects.app_lock]
      have h := IH.2.1
      omega
    · intro hf hpfin
      rcases Nat.eq_zero_or_pos rest.length with hrest | hrest
      · rw [List.length_eq_zero.mp hrest] at hpfin ⊢
        simp only [runTrace] at hpfin ⊢
        exact run_cycle_flag_mono i s hf hpfin
      · have hf1 : (run_cycle i s).1.profit_lock_active = true :=
          run_cycle_flag_mono i s hf (hp1of hrest)
        exact IH.2.2 hf1 hpfin

/-- Concrete venue position row for the witness of claim C1. -/
def posC1 : Position := ⟨"Buy", 5, 100, 0⟩

/-- Concrete engine state holding that position, lock not yet active. -/
def stateC1 : EngineState := ⟨some posC1, false, 100, some "buy", some 0⟩

/-- Concrete cycle input for the witness of claim C1: market data
available, the venue keeps reporting the position, the profit-lock
oracle fires, trailing info is available, and no signal arrives. -/
def cycleC1 : CycleInput :=
  ⟨true, 1, .ok [posC1], true, some ⟨1, 1, 1⟩, .ok [posC1], none,
   .accepted, ⟨10, none, .rejected, .accepted, 1, .accepted, .ok []⟩⟩

/-- Witness for claim C1: two cycles with the activation oracle firing in
both; the run stays within one lock assignment and one trailing-stop
submission. -/
theorem c1_profit_lock_monotone_witness :
    (runTrace [cycleC1, cycleC1] stateC1).2.lock_sets +
        (if stateC1.profit_lock_active = true then 1 else 0) ≤ 1 ∧
    (runTrace [cycleC1, cycleC1] stateC1).2.trailing_stop_subs ≤
      (runTrace [cycleC1, cycleC1] stateC1).2.lock_sets ∧
    (stateC1.profit_lock_active = true →
      (runTrace [cycleC1, cycleC1] stateC1).1.position.isSome = true →
      (runTrace [cycleC1, cycleC1] stateC1).1.profit_lock_active = true) :=
  c1_profit_lock_monotone [cycleC1, cycleC1] stateC1 (by decide)

/-- A computation returned without an uncaught exception. -/
def returnsNormally {α : Type} (e : Except String α) : Prop :=
  ∃ a, e = .ok a

theorem send_message_ok (n : NotifierState) (d : Delivery) :
    returnsNormally (send_message n d) := by
  unfold returnsNormally send_message
  split
  · exact ⟨_, rfl⟩
  · cases d <;> exact ⟨_, rfl⟩

theorem clear_messages_ok (n : NotifierState) (d : Delivery) :
    returnsNormally (clear_messages n d) := by
  unfold returnsNormally clear_messages
  split
  · exact ⟨_, rfl⟩
  · cases d <;> exact ⟨_, rfl⟩

/-- Claim C8: every notifier method returns normally for every delivery
outcome, including a raised Telegram API call, so no delivery failure
propagates into the trading loop. -/
theorem c8_notifier_never_raises (n : NotifierState) (now : ℕ) (pnl : ℚ)
    (d d2 : Delivery) :
    returnsNormally (send_message n d) ∧
    returnsNormally (clear_messages n d) ∧
    returnsNormally (trade_opened n now d).2 ∧
    returnsNormally (trade_closed n now pnl d).2 ∧
    returnsNormally (profit_lock_activated n d) ∧
    returnsNormally (error_notification n d) ∧
    returnsNormally (bot_started n d d2) ∧
    returnsNormally (bot_stopped n d) := by
  refine ⟨send_message_ok n d, clear_messages_ok n d, send_message_ok _ d, ?_,
    send_message_ok n d, send_message_ok n d, ?_, send_message_ok n d⟩
  · unfold trade_closed
    cases h : n.position_start_time <;> simp [h] <;> exact send_message_ok _ d
  · obtain ⟨r, hr⟩ := clear_messages_ok n d
    unfold bot_started
    rw [hr]
    exact send_message_ok n d2

end TradeBot
